import Mathlib

/-!
Shallow embedding of the reactive class-component synchronizer of
`src/packages/mobx-react/src/observerClass.ts` and the wrap-time checks of
`src/packages/mobx-react/src/observer.tsx`.

Modelling conventions:
* JS object identities (props/state/context objects) and `Symbol()` tokens
  are natural numbers; `null`/`undefined` inputs are `Option Nat` with `none`
  for the absent value.
* JS `Symbol()` minting is modelled by a per-record counter `nextSym`: every
  mint hands out the current counter value and increments it, so freshly
  minted tokens are distinct from all tokens minted earlier (the only property
  `Symbol()` provides that the code relies on is equality/inequality).
* The actual `shallowEqual` utility lives outside the two source files, so it
  is a parameter `eq : Nat → Nat → Bool`, lifted to `Option Nat` with
  the JS behaviour `shallowEqual(undefined, x) = false` for an object `x` and
  `shallowEqual(undefined, undefined) = true`.
* `WeakSet` becomes a duplicate-free `List Nat` (`addOnce` / `List.erase`).
* A stored `scheduleUpdate` callback is modelled by a presence flag plus an
  append-only `notifyLog` of the tokens every invocation was called with.
* `reaction` is a presence flag (the source also uses `null` as the disposed
  marker); the finalization-registry entry for the instance is a flag
  `finalizationRegistered` on the record.
-/

inductive Key where
  | props
  | state
  | context
deriving DecidableEq

/-- `ObserverAdministration` from observerClass.ts, plus the mint counter,
the notify log and the per-instance finalization-registry flag. The three
atoms are modelled by counters of their `reportChanged` calls. -/
structure ObserverAdministration where
  reaction : Bool
  scheduleUpdate : Bool
  mounted : Bool
  props : Option Nat
  state : Option Nat
  context : Option Nat
  propsAtomChanges : Nat
  stateAtomChanges : Nat
  contextAtomChanges : Nat
  pendingStateVersion : Nat
  stateVersion : Nat
  changedVariables : List Nat
  unchangedVariables : List Nat
  nextSym : Nat
  notifyLog : List Nat
  finalizationRegistered : Bool
deriving DecidableEq

/-- The record built lazily by `getAdministration`: no reaction, not mounted,
no callback, undefined cached inputs, fresh atoms, empty weak sets, and
`pendingStateVersion` and `stateVersion` both set to one `initialSymbol`. -/
def getAdministration : ObserverAdministration where
  reaction := false
  scheduleUpdate := false
  mounted := false
  props := none
  state := none
  context := none
  propsAtomChanges := 0
  stateAtomChanges := 0
  contextAtomChanges := 0
  pendingStateVersion := 0
  stateVersion := 0
  changedVariables := []
  unchangedVariables := []
  nextSym := 1
  notifyLog := []
  finalizationRegistered := false

/-- `admin.pendingStateVersion = Symbol()`. -/
def mintPending (a : ObserverAdministration) : ObserverAdministration :=
  { a with pendingStateVersion := a.nextSym, nextSym := a.nextSym + 1 }

/-- Cached value of one input category (`admin[key]`). -/
def getKey (a : ObserverAdministration) (k : Key) : Option Nat :=
  match k with
  | .props => a.props
  | .state => a.state
  | .context => a.context

/-- `admin[key] = value`. -/
def setKey (a : ObserverAdministration) (k : Key) (v : Option Nat) :
    ObserverAdministration :=
  match k with
  | .props => { a with props := v }
  | .state => { a with state := v }
  | .context => { a with context := v }

/-- `admin[atomKey].reportChanged()`. -/
def reportChanged (a : ObserverAdministration) (k : Key) : ObserverAdministration :=
  match k with
  | .props => { a with propsAtomChanges := a.propsAtomChanges + 1 }
  | .state => { a with stateAtomChanges := a.stateAtomChanges + 1 }
  | .context => { a with contextAtomChanges := a.contextAtomChanges + 1 }

/-- Number of `reportChanged` calls the atom of category `k` has received. -/
def atomChanges (a : ObserverAdministration) (k : Key) : Nat :=
  match k with
  | .props => a.propsAtomChanges
  | .state => a.stateAtomChanges
  | .context => a.contextAtomChanges

/-- Lift of the external `shallowEqual` utility to possibly-absent values:
`shallowEqual(undefined, undefined)` is true, comparing an absent value with
a present one is false. -/
def shallowEqualOpt (eq : Nat → Nat → Bool) : Option Nat → Option Nat → Bool
  | some x, some y => eq x y
  | none, none => true
  | _, _ => false

/-- `WeakSet.has` (an absent value is never a member). -/
def weakHas (l : List Nat) (v : Option Nat) : Bool :=
  match v with
  | some x => x ∈ l
  | none => false

/-- `WeakSet.delete` on a present value. -/
def weakDelete (l : List Nat) (v : Option Nat) : List Nat :=
  match v with
  | some x => l.erase x
  | none => l

/-- `WeakSet.add` (idempotent). -/
def addOnce (l : List Nat) (x : Nat) : List Nat :=
  if x ∈ l then l else l ++ [x]

/-- The setter of `createObservablePropDescriptor(key)`: the four-way branch
on `changedVariables`, `unchangedVariables` and shallow equality with the
cached value. -/
def writeObservable (eq : Nat → Nat → Bool) (k : Key) (v : Option Nat)
    (a : ObserverAdministration) : ObserverAdministration :=
  if weakHas a.changedVariables v then
    reportChanged (setKey { a with changedVariables := weakDelete a.changedVariables v } k v) k
  else if weakHas a.unchangedVariables v then
    setKey { a with unchangedVariables := weakDelete a.unchangedVariables v } k v
  else if !(shallowEqualOpt eq (getKey a k) v) then
    reportChanged (setKey (mintPending a) k v) k
  else
    setKey a k v

/-- `observerSCU(nextProps, nextState)`: returns the `shouldUpdate` boolean
together with the updated record. A `none` (JS null/undefined) proposed input
is never added to the weak sets, mirroring the `nextProps && ...` guards. -/
def observerSCU (eq : Nat → Nat → Bool) (nextProps nextState : Option Nat)
    (a : ObserverAdministration) : Bool × ObserverAdministration :=
  let propsChanged := !(shallowEqualOpt eq a.props nextProps)
  let stateChanged := !(shallowEqualOpt eq a.state nextState)
  let shouldUpdate :=
    propsChanged || stateChanged || (a.pendingStateVersion != a.stateVersion)
  let a1 := if shouldUpdate then mintPending a else a
  let a2 :=
    match nextProps with
    | some p =>
        if propsChanged then { a1 with changedVariables := addOnce a1.changedVariables p }
        else { a1 with unchangedVariables := addOnce a1.unchangedVariables p }
    | none => a1
  let a3 :=
    match nextState with
    | some s =>
        if stateChanged then { a2 with changedVariables := addOnce a2.changedVariables s }
        else { a2 with unchangedVariables := addOnce a2.unchangedVariables s }
    | none => a2
  (shouldUpdate, a3)

/-- The patched `componentDidMount`: set `mounted`, unregister from the
finalization registry, and if the reaction is missing or
`pendingStateVersion !== stateVersion`, mint a fresh pending token and invoke
`scheduleUpdate` with it when one is registered. -/
def componentDidMount (a : ObserverAdministration) : ObserverAdministration :=
  let a1 := { a with mounted := true, finalizationRegistered := false }
  if !a1.reaction || (a1.pendingStateVersion != a1.stateVersion) then
    let a2 := mintPending a1
    if a2.scheduleUpdate then { a2 with notifyLog := a2.notifyLog ++ [a2.pendingStateVersion] }
    else a2
  else a1

/-- The patched `componentWillUnmount`: under static rendering it returns
immediately; otherwise it disposes the reaction (a no-op when absent), clears
the handle and clears `mounted`. -/
def componentWillUnmount (staticRendering : Bool) (a : ObserverAdministration) :
    ObserverAdministration :=
  if staticRendering then a
  else { a with reaction := false, mounted := false }

/-- `prototype.setScheduleUpdate`: under static rendering it returns
immediately; otherwise it stores the callback and, when
`pendingStateVersion !== stateVersion && mounted`, invokes it at once with the
current pending token. -/
def setScheduleUpdate (staticRendering : Bool) (a : ObserverAdministration) :
    ObserverAdministration :=
  if staticRendering then a
  else
    let a1 := { a with scheduleUpdate := true }
    if (a1.pendingStateVersion != a1.stateVersion) && a1.mounted then
      { a1 with notifyLog := a1.notifyLog ++ [a1.pendingStateVersion] }
    else a1

/-- The invalidation callback installed by `createReaction`: early return when
`pendingStateVersion !== stateVersion`, otherwise mint a fresh pending token
and, if mounted, invoke `scheduleUpdate` (when registered) with it. -/
def reactionCallback (a : ObserverAdministration) : ObserverAdministration :=
  if a.pendingStateVersion != a.stateVersion then a
  else
    let a1 := mintPending a
    if a1.mounted && a1.scheduleUpdate then
      { a1 with notifyLog := a1.notifyLog ++ [a1.pendingStateVersion] }
    else a1

abbrev RenderErr := Nat

abbrev RenderResult := Nat

/-- `reactiveRender` from `createReactiveRender`: lazily create the reaction
(registering with the finalization registry when not yet mounted), run the
original render inside the tracked scope, commit
`stateVersion := pendingStateVersion` only on success, and rethrow a captured
exception after the tracked scope has completed. The original render is
modelled by its outcome `r`. -/
def reactiveRender (r : Except RenderErr RenderResult) (a : ObserverAdministration) :
    Except RenderErr RenderResult × ObserverAdministration :=
  let a1 :=
    if !a.reaction then
      let a' := { a with reaction := true }
      if !a'.mounted then { a' with finalizationRegistered := true } else a'
    else a
  match r with
  | .ok v => (.ok v, { a1 with stateVersion := a1.pendingStateVersion })
  | .error e => (.error e, a1)

/-- `MobxObserverStore`: the token cell plus the listener set; listeners are
ids, and `notified` logs, in order, every listener invocation performed by
`notifyListeners`. -/
structure MobxObserverStore where
  value : Nat
  listeners : List Nat
  notified : List Nat
deriving DecidableEq

/-- The store constructor mints a fresh symbol for `value`; the mint is the
parameter. -/
def MobxObserverStore.init (initialSymbol : Nat) : MobxObserverStore where
  value := initialSymbol
  listeners := []
  notified := []

/-- `setValue`: replace the stored token and notify every listener, but only
when the new token differs from the stored one. -/
def MobxObserverStore.setValue (s : MobxObserverStore) (newValue : Nat) :
    MobxObserverStore :=
  if s.value != newValue then
    { s with value := newValue, notified := s.notified ++ s.listeners }
  else s

/-- `getValue`. -/
def MobxObserverStore.getValue (s : MobxObserverStore) : Nat :=
  s.value

/-- `subscribe` (the `Set` add; the returned unsubscriber is `unsubscribe`). -/
def MobxObserverStore.subscribe (s : MobxObserverStore) (l : Nat) : MobxObserverStore :=
  if l ∈ s.listeners then s else { s with listeners := s.listeners ++ [l] }

/-- The unsubscribe function returned by `subscribe`. -/
def MobxObserverStore.unsubscribe (s : MobxObserverStore) (l : Nat) : MobxObserverStore :=
  { s with listeners := s.listeners.erase l }

/-- Shape of a class component handed to the wrap operation, as far as the
wrap-time checks inspect it. -/
structure ComponentClassDesc where
  hasComponentWillReact : Bool
  extendsPureComponent : Bool
  hasOwnSCU : Bool
  scuIsObserverSCU : Bool
  hasRenderFunction : Bool
  isMobXReactObserver : Bool
deriving DecidableEq

inductive WrapError where
  | alreadyObserver
  | componentWillReactDeprecated
  | scuNotAllowed
  | pureComponentNotAllowed
  | missingRender
deriving DecidableEq

/-- `makeClassComponentObserver`, restricted to its synchronous wrap-time
checks (observerClass.ts lines 87–121): deprecated `componentWillReact`,
the `PureComponent` / foreign `shouldComponentUpdate` rejection, and the
missing-`render` rejection; on success `observerSCU` is installed. -/
def makeClassComponentObserver (d : ComponentClassDesc) :
    Except WrapError ComponentClassDesc :=
  if d.hasComponentWillReact then .error .componentWillReactDeprecated
  else if !d.extendsPureComponent then
    if !d.hasOwnSCU then
      let d1 := { d with hasOwnSCU := true, scuIsObserverSCU := true }
      if !d1.hasRenderFunction then .error .missingRender else .ok d1
    else if !d.scuIsObserverSCU then .error .scuNotAllowed
    else if !d.hasRenderFunction then .error .missingRender
    else .ok d
  else .error .pureComponentNotAllowed

/-- `observer` from observer.tsx, on the class-component path: reject a class
already marked as an observer, then run `makeClassComponentObserver` and mark
the result. -/
def observer (d : ComponentClassDesc) : Except WrapError ComponentClassDesc :=
  if d.isMobXReactObserver then .error .alreadyObserver
  else
    match makeClassComponentObserver d with
    | .ok d1 => .ok { d1 with isMobXReactObserver := true }
    | .error e => .error e

/-- The operations that touch an administration record, for stating global
invariants over runs. `render` is parametrised by the outcome of the original
render body. The lifecycle entry points that consult the static-rendering
flag are taken in interactive mode (`staticRendering = false`). -/
inductive Op where
  | write (k : Key) (v : Option Nat)
  | scu (nextProps nextState : Option Nat)
  | didMount
  | willUnmount
  | reactionFire
  | render (r : Except RenderErr RenderResult)
  | setSched

def step (eq : Nat → Nat → Bool) (o : Op) (a : ObserverAdministration) :
    ObserverAdministration :=
  match o with
  | .write k v => writeObservable eq k v a
  | .scu np ns => (observerSCU eq np ns a).2
  | .didMount => componentDidMount a
  | .willUnmount => componentWillUnmount false a
  | .reactionFire => reactionCallback a
  | .render r => (reactiveRender r a).2
  | .setSched => setScheduleUpdate false a

/-- Mint-counter soundness: every token the record holds was minted before the
counter's current value, so a fresh mint differs from both held tokens. -/
def TokensMinted (a : ObserverAdministration) : Prop :=
  a.pendingStateVersion < a.nextSym ∧ a.stateVersion < a.nextSym

/-- A concrete stand-in for `shallowEqual` on object identities: two objects
are shallowly equal when they lie in the same decade. It is reflexive,
symmetric and transitive, as shallow equality of plain objects is. -/
def eqTens : Nat → Nat → Bool :=
  fun x y => x / 10 == y / 10

/-- A run that leaves the instance mounted, with a registered callback and an
unconsumed invalidation (`pendingStateVersion ≠ stateVersion`): first render
succeeds, the instance mounts, the hosting wrapper registers its callback,
then an external shallow-unequal props write mints a new pending token. -/
def preInvalidated : ObserverAdministration :=
  step eqTens (.write .props (some 10))
    (step eqTens .setSched
      (step eqTens .didMount
        (step eqTens (.render (.ok 0)) getAdministration)))

/-- A run after which the object `20` sits in both weak sets: the update
decision first classifies it as changed against cached props `10`, an external
write then replaces the cache with `21` (shallowly equal to `20`), and a
second update decision with the same object classifies it as unchanged. -/
def bothSetsAdmin : ObserverAdministration :=
  step eqTens (.scu (some 20) none)
    (step eqTens (.write .props (some 21))
      (step eqTens (.scu (some 20) none)
        (step eqTens (.write .props (some 10)) getAdministration)))

/-! ## Theorems -/

/-- Claim C5: `setValue(token)` replaces the stored token and synchronously
notifies every subscribed listener exactly when the token differs by identity
from the stored one; two `setValue` calls with the same token produce one
notification in total (for the single subscribed listener), and `getValue`
returns the stored token. -/
theorem store_setValue_spec (s : MobxObserverStore) (t : Nat) (l : Nat) :
    (t ≠ s.value →
      (s.setValue t).value = t ∧ (s.setValue t).notified = s.notified ++ s.listeners) ∧
    (t = s.value → s.setValue t = s) ∧
    s.getValue = s.value ∧
    (t ≠ s.value → ((s.setValue t).setValue t).notified = s.notified ++ s.listeners) ∧
    (t ≠ s.value → s.listeners = [l] →
      ((s.setValue t).setValue t).notified.length = s.notified.length + 1) := by
  refine ⟨?_, ?_, rfl, ?_, ?_⟩
  · intro h
    simp [MobxObserverStore.setValue, bne_iff_ne, Ne.symm h]
  · intro h
    simp [MobxObserverStore.setValue, h]
  · intro h
    simp [MobxObserverStore.setValue, bne_iff_ne, Ne.symm h]
  · intro h hl
    simp [MobxObserverStore.setValue, bne_iff_ne, Ne.symm h, hl]

/-- Witness for C5: on a store holding token 0 with one listener, pushing
token 1 twice notifies exactly once. -/
theorem store_setValue_spec_witness :
    ((((MobxObserverStore.init 0).subscribe 5).setValue 1).setValue 1).notified.length =
      ((MobxObserverStore.init 0).subscribe 5).notified.length + 1 :=
  (store_setValue_spec ((MobxObserverStore.init 0).subscribe 5) 1 5).2.2.2.2
    (by decide) (by decide)

/-- Claim C7: the unmount hook (in interactive mode) clears the reaction
handle, clears the mount flag and changes nothing else; in particular it is a
total function, so unmounting with an absent reaction never raises and leaves
`mounted = false`. -/
theorem componentWillUnmount_spec (a : ObserverAdministration) :
    componentWillUnmount false a = { a with reaction := false, mounted := false } := by
  simp [componentWillUnmount]

/-- Claim C8: the wrap operation rejects, synchronously, a class already
wrapped as an observer, a deprecated `componentWillReact` hook, a
`PureComponent` base, a foreign `shouldComponentUpdate`, and a missing
prototype `render` function. -/
theorem observer_wrap_errors (d : ComponentClassDesc)
    (h : d.isMobXReactObserver = true ∨ d.hasComponentWillReact = true ∨
      d.extendsPureComponent = true ∨
      (d.hasOwnSCU = true ∧ d.scuIsObserverSCU = false) ∨
      d.hasRenderFunction = false) :
    ∃ e : WrapError, observer d = .error e := by
  unfold observer makeClassComponentObserver
  rcases h with h | h | h | ⟨h1, h2⟩ | h <;>
    · split_ifs <;> simp_all

/-- Witness for C8: wrapping a class missing a prototype `render` fails. -/
theorem observer_wrap_errors_witness :
    ∃ e : WrapError,
      observer
        { hasComponentWillReact := false, extendsPureComponent := false,
          hasOwnSCU := false, scuIsObserverSCU := false,
          hasRenderFunction := false, isMobXReactObserver := false } = .error e :=
  observer_wrap_errors
    { hasComponentWillReact := false, extendsPureComponent := false,
      hasOwnSCU := false, scuIsObserverSCU := false,
      hasRenderFunction := false, isMobXReactObserver := false }
    (Or.inr (Or.inr (Or.inr (Or.inr rfl))))

/-- Claim C6: the reactive render propagates the original render's outcome
unchanged (exceptions included) after the reaction bookkeeping has run, skips
the `stateVersion := pendingStateVersion` commit on failure, and performs it
on success; the pending token itself is never touched by a render. -/
theorem reactiveRender_spec (r : Except RenderErr RenderResult)
    (a : ObserverAdministration) :
    (reactiveRender r a).1 = r ∧
    (reactiveRender r a).2.reaction = true ∧
    (reactiveRender r a).2.pendingStateVersion = a.pendingStateVersion ∧
    (∀ e, r = .error e → (reactiveRender r a).2.stateVersion = a.stateVersion) ∧
    (∀ v, r = .ok v →
      (reactiveRender r a).2.stateVersion = a.pendingStateVersion ∧
      (reactiveRender r a).2.stateVersion = (reactiveRender r a).2.pendingStateVersion) := by
  cases r <;> simp [reactiveRender] <;> split_ifs <;> simp_all

/-- Witness for C6: a failing render leaves `stateVersion` untouched while
the exception comes back unchanged. -/
theorem reactiveRender_spec_witness :
    (reactiveRender (.error 7) getAdministration).2.stateVersion =
      getAdministration.stateVersion :=
  (reactiveRender_spec (.error 7) getAdministration).2.2.2.1 7 rfl

/-- Counterexample to claim C10 as stated: under static rendering the call
returns before storing anything, so registration does not store the callback
on the administration record (`scheduleUpdate` stays absent); the record is
untouched. -/
theorem setScheduleUpdate_static_counterexample :
    setScheduleUpdate true getAdministration = getAdministration ∧
    (setScheduleUpdate true getAdministration).scheduleUpdate = false := by
  decide

/-- Claim C10 (amended): in static rendering mode `setScheduleUpdate` is a
complete no-op (neither stores nor invokes); otherwise it stores the callback
and, exactly when the instance is mounted and `pendingStateVersion` differs
from `stateVersion`, immediately invokes it once with the current pending
token. -/
theorem setScheduleUpdate_spec (staticRendering : Bool) (a : ObserverAdministration) :
    (staticRendering = true → setScheduleUpdate staticRendering a = a) ∧
    (staticRendering = false →
      (setScheduleUpdate false a).scheduleUpdate = true ∧
      (a.mounted = true → a.pendingStateVersion ≠ a.stateVersion →
        (setScheduleUpdate false a).notifyLog = a.notifyLog ++ [a.pendingStateVersion]) ∧
      ((a.mounted = false ∨ a.pendingStateVersion = a.stateVersion) →
        (setScheduleUpdate false a).notifyLog = a.notifyLog)) := by
  constructor
  · intro h
    simp [setScheduleUpdate, h]
  · intro _
    refine ⟨?_, ?_, ?_⟩
    · simp [setScheduleUpdate]
      split <;> rfl
    · intro hm hv
      simp [setScheduleUpdate, hm, bne_iff_ne, hv]
    · rintro (hm | hv)
      · simp [setScheduleUpdate, hm]
      · simp [setScheduleUpdate, hv]

/-- Witness for C10 (amended): registering on a mounted, invalidated record
immediately invokes the callback with the pending token. -/
theorem setScheduleUpdate_spec_witness :
    (setScheduleUpdate false { getAdministration with
        mounted := true, pendingStateVersion := 1, nextSym := 2 }).notifyLog =
      ({ getAdministration with
        mounted := true, pendingStateVersion := 1, nextSym := 2 } :
          ObserverAdministration).notifyLog ++ [1] :=
  ((setScheduleUpdate_spec false { getAdministration with
      mounted := true, pendingStateVersion := 1, nextSym := 2 }).2 rfl).2.1
    rfl (by decide)

/-- Counterexample to claim C2 as stated: `preInvalidated` is reached by a
successful render, a mount, a callback registration and one shallow-unequal
external props write, so it is mounted, has a registered callback, and holds
an unconsumed invalidation. When the reaction's invalidation callback fires
in this state it returns early: no fresh pending token is minted and the
callback is not invoked (the record is unchanged). -/
theorem reactionCallback_counterexample :
    preInvalidated.mounted = true ∧
    preInvalidated.scheduleUpdate = true ∧
    preInvalidated.pendingStateVersion ≠ preInvalidated.stateVersion ∧
    reactionCallback preInvalidated = preInvalidated := by
  decide

/-- Claim C2 (amended): when the reaction's invalidation callback fires with
`pendingStateVersion` equal to `stateVersion`, it mints a fresh pending token
and, if the instance is mounted and a notify callback is registered, invokes
it once with the new token; when the two versions already differ it returns
without minting or notifying. -/
theorem reactionCallback_spec (a : ObserverAdministration) (h : TokensMinted a) :
    (a.pendingStateVersion = a.stateVersion →
      (reactionCallback a).pendingStateVersion = a.nextSym ∧
      (reactionCallback a).pendingStateVersion ≠ a.pendingStateVersion ∧
      (a.mounted = true → a.scheduleUpdate = true →
        (reactionCallback a).notifyLog =
          a.notifyLog ++ [(reactionCallback a).pendingStateVersion]) ∧
      ((a.mounted = false ∨ a.scheduleUpdate = false) →
        (reactionCallback a).notifyLog = a.notifyLog)) ∧
    (a.pendingStateVersion ≠ a.stateVersion → reactionCallback a = a) := by
  obtain ⟨h1, h2⟩ := h
  constructor
  · intro hv
    refine ⟨?_, ?_, ?_, ?_⟩
    · simp [reactionCallback, hv, mintPending]
      split <;> rfl
    · simp [reactionCallback, hv, mintPending]
      split <;> simp <;> omega
    · intro hm hs
      simp [reactionCallback, hv, mintPending, hm, hs]
    · rintro (hm | hs)
      · simp [reactionCallback, hv, mintPending, hm]
      · simp [reactionCallback, hv, mintPending, hs]
  · intro hv
    simp [reactionCallback, bne_iff_ne, hv]

/-- Witness for C2 (amended): on the freshly created record (versions equal)
the callback mints the counter's next token. -/
theorem reactionCallback_spec_witness :
    (reactionCallback getAdministration).pendingStateVersion = getAdministration.nextSym :=
  ((reactionCallback_spec getAdministration ⟨by decide, by decide⟩).1 rfl).1

/-- Closed form of the patched `componentDidMount`. -/
theorem componentDidMount_eq (a : ObserverAdministration) :
    componentDidMount a =
      if !a.reaction || (a.pendingStateVersion != a.stateVersion) then
        (if a.scheduleUpdate then
          { a with
              mounted := true, finalizationRegistered := false,
              pendingStateVersion := a.nextSym, nextSym := a.nextSym + 1,
              notifyLog := a.notifyLog ++ [a.nextSym] }
        else
          { a with
              mounted := true, finalizationRegistered := false,
              pendingStateVersion := a.nextSym, nextSym := a.nextSym + 1 })
      else { a with mounted := true, finalizationRegistered := false } := by
  simp [componentDidMount, mintPending]

/-- Claim C4: mount sets the mount flag, unregisters the instance from the
finalization registry and, exactly when the reaction is absent or
`pendingStateVersion` differs from `stateVersion`, mints a fresh pending
token and invokes the registered notify callback exactly once with it;
otherwise it neither mints nor notifies (the record is otherwise untouched). -/
theorem componentDidMount_spec (a : ObserverAdministration) (h : TokensMinted a) :
    (componentDidMount a).mounted = true ∧
    (componentDidMount a).finalizationRegistered = false ∧
    ((a.reaction = false ∨ a.pendingStateVersion ≠ a.stateVersion) →
      (componentDidMount a).pendingStateVersion = a.nextSym ∧
      (componentDidMount a).pendingStateVersion ≠ a.pendingStateVersion ∧
      (componentDidMount a).pendingStateVersion ≠ a.stateVersion ∧
      (a.scheduleUpdate = true →
        (componentDidMount a).notifyLog =
          a.notifyLog ++ [(componentDidMount a).pendingStateVersion]) ∧
      (a.scheduleUpdate = false → (componentDidMount a).notifyLog = a.notifyLog)) ∧
    ((a.reaction = true ∧ a.pendingStateVersion = a.stateVersion) →
      componentDidMount a = { a with mounted := true, finalizationRegistered := false }) := by
  obtain ⟨h1, h2⟩ := h
  simp only [componentDidMount_eq]
  by_cases hr : a.reaction = true <;> by_cases hv : a.pendingStateVersion = a.stateVersion <;>
    by_cases hsch : a.scheduleUpdate = true <;> simp_all [bne_iff_ne] <;> omega

/-- Witness for C4: mounting the freshly created record (no reaction yet)
mints the counter's next token. -/
theorem componentDidMount_spec_witness :
    (componentDidMount getAdministration).pendingStateVersion = getAdministration.nextSym :=
  (((componentDidMount_spec getAdministration ⟨by decide, by decide⟩).2.2.1) (Or.inl rfl)).1

/-- `WeakSet.add` puts the element in. -/
theorem mem_addOnce_self (l : List Nat) (x : Nat) : x ∈ addOnce l x := by
  unfold addOnce
  split
  · assumption
  · simp

/-- `WeakSet.add` keeps existing members. -/
theorem mem_addOnce_of_mem (l : List Nat) (x y : Nat) (h : x ∈ l) : x ∈ addOnce l y := by
  unfold addOnce
  split
  · exact h
  · simp [h]

/-- Membership after `WeakSet.add`: exactly the old members and the added
element. -/
theorem mem_addOnce_iff (l : List Nat) (x y : Nat) : x ∈ addOnce l y ↔ x ∈ l ∨ x = y := by
  unfold addOnce
  split
  · rename_i hy
    constructor
    · exact Or.inl
    · rintro (h | rfl)
      · exact h
      · exact hy
  · simp

/-- Counterexample to claim C1 as stated: in the reachable state
`bothSetsAdmin` the object `20` is registered in `unchangedVariables`
(pre-classified as a no-op write), yet writing it back to `props` marks the
props atom changed, because `20` also sits in `changedVariables` and the code
consults `changedVariables` first — contradicting the claim's no-op clause,
which demands the atom not be marked. -/
theorem writeObservable_counterexample :
    20 ∈ bothSetsAdmin.unchangedVariables ∧
    20 ∈ bothSetsAdmin.changedVariables ∧
    atomChanges (writeObservable eqTens .props (some 20) bothSetsAdmin) .props =
      atomChanges bothSetsAdmin .props + 1 ∧
    (writeObservable eqTens .props (some 20) bothSetsAdmin).pendingStateVersion =
      bothSetsAdmin.pendingStateVersion := by
  decide

/-- Claim C1 (amended): the write path tests `writtenByEngine`
(`changedVariables`) before `writtenNoOp` (`unchangedVariables`). If the
value is in `changedVariables`: consume that marker, update the cache, mark
the atom changed, mint nothing. Else if it is in `unchangedVariables`:
consume that marker, update the cache, neither mint nor mark. Else if it is
not shallowly equal to the cached value: update the cache, mint a fresh
pending token and mark the atom changed. Else: update only the cache. -/
theorem writeObservable_spec (eq : Nat → Nat → Bool) (k : Key) (v : Nat)
    (a : ObserverAdministration) (h : TokensMinted a) :
    (v ∈ a.changedVariables →
      (writeObservable eq k (some v) a).changedVariables = a.changedVariables.erase v ∧
      getKey (writeObservable eq k (some v) a) k = some v ∧
      atomChanges (writeObservable eq k (some v) a) k = atomChanges a k + 1 ∧
      (writeObservable eq k (some v) a).pendingStateVersion = a.pendingStateVersion ∧
      (writeObservable eq k (some v) a).nextSym = a.nextSym) ∧
    (v ∉ a.changedVariables → v ∈ a.unchangedVariables →
      (writeObservable eq k (some v) a).unchangedVariables = a.unchangedVariables.erase v ∧
      getKey (writeObservable eq k (some v) a) k = some v ∧
      atomChanges (writeObservable eq k (some v) a) k = atomChanges a k ∧
      (writeObservable eq k (some v) a).pendingStateVersion = a.pendingStateVersion ∧
      (writeObservable eq k (some v) a).nextSym = a.nextSym) ∧
    (v ∉ a.changedVariables → v ∉ a.unchangedVariables →
      shallowEqualOpt eq (getKey a k) (some v) = false →
      getKey (writeObservable eq k (some v) a) k = some v ∧
      (writeObservable eq k (some v) a).pendingStateVersion = a.nextSym ∧
      (writeObservable eq k (some v) a).pendingStateVersion ≠ a.pendingStateVersion ∧
      (writeObservable eq k (some v) a).pendingStateVersion ≠ a.stateVersion ∧
      atomChanges (writeObservable eq k (some v) a) k = atomChanges a k + 1) ∧
    (v ∉ a.changedVariables → v ∉ a.unchangedVariables →
      shallowEqualOpt eq (getKey a k) (some v) = true →
      writeObservable eq k (some v) a = setKey a k (some v)) := by
  obtain ⟨h1, h2⟩ := h
  refine ⟨?_, ?_, ?_, ?_⟩
  · intro hc
    cases k <;>
      simp_all [writeObservable, weakHas, weakDelete, getKey, setKey, reportChanged,
        atomChanges, mintPending]
  · intro hc hu
    cases k <;>
      simp_all [writeObservable, weakHas, weakDelete, getKey, setKey, reportChanged,
        atomChanges, mintPending]
  · intro hc hu hne
    cases k <;>
      simp_all [writeObservable, weakHas, weakDelete, getKey, setKey, reportChanged,
        atomChanges, mintPending] <;>
      omega
  · intro hc hu heq
    cases k <;>
      simp_all [writeObservable, weakHas, weakDelete, getKey, setKey, reportChanged,
        atomChanges, mintPending]

/-- Witness for C1 (amended): writing `20` back in `bothSetsAdmin` takes the
`changedVariables` branch and bumps the props atom. -/
theorem writeObservable_spec_witness :
    atomChanges (writeObservable eqTens .props (some 20) bothSetsAdmin) .props =
      atomChanges bothSetsAdmin .props + 1 :=
  ((writeObservable_spec eqTens .props 20 bothSetsAdmin ⟨by decide, by decide⟩).1
    (by decide)).2.2.1

/-- Counterexample to claim C3 as stated: invoking the update-decision hook
on the fresh record with a null proposed state (routine for a stateless class
component) computes `stateChanged = false` — the undefined cache and the null
proposal are shallowly unchanged — so the claim requires the proposed state
input to be registered into `writtenNoOp`; but the `nextState && ...` guard
skips registration entirely, and after the call the no-op set is still empty
(only the changed props object `3` was registered anywhere). -/
theorem observerSCU_counterexample :
    shallowEqualOpt eqTens getAdministration.state none = true ∧
    (observerSCU eqTens (some 3) none getAdministration).2.unchangedVariables = [] ∧
    (observerSCU eqTens (some 3) none getAdministration).2.changedVariables = [3] := by
  decide

/-- Claim C3 (amended): the update-decision hook returns
`propsChanged || stateChanged || (pendingStateVersion != stateVersion)` with
the two changes computed by independent shallow comparisons against the
cached inputs; it mints a fresh pending token exactly when it returns true;
each non-null proposed input is registered into `changedVariables` when
changed and into `unchangedVariables` when not; and nothing else enters the
two sets — in particular a null proposed input is registered nowhere. -/
theorem observerSCU_spec (eq : Nat → Nat → Bool) (np ns : Option Nat)
    (a : ObserverAdministration) (h : TokensMinted a) :
    (observerSCU eq np ns a).1 =
      (!(shallowEqualOpt eq a.props np) || !(shallowEqualOpt eq a.state ns) ||
        (a.pendingStateVersion != a.stateVersion)) ∧
    ((observerSCU eq np ns a).1 = true →
      (observerSCU eq np ns a).2.pendingStateVersion = a.nextSym ∧
      (observerSCU eq np ns a).2.pendingStateVersion ≠ a.pendingStateVersion ∧
      (observerSCU eq np ns a).2.pendingStateVersion ≠ a.stateVersion) ∧
    ((observerSCU eq np ns a).1 = false →
      (observerSCU eq np ns a).2.pendingStateVersion = a.pendingStateVersion ∧
      (observerSCU eq np ns a).2.nextSym = a.nextSym) ∧
    (∀ p : Nat, np = some p → shallowEqualOpt eq a.props np = false →
      p ∈ (observerSCU eq np ns a).2.changedVariables) ∧
    (∀ p : Nat, np = some p → shallowEqualOpt eq a.props np = true →
      p ∈ (observerSCU eq np ns a).2.unchangedVariables) ∧
    (∀ q : Nat, ns = some q → shallowEqualOpt eq a.state ns = false →
      q ∈ (observerSCU eq np ns a).2.changedVariables) ∧
    (∀ q : Nat, ns = some q → shallowEqualOpt eq a.state ns = true →
      q ∈ (observerSCU eq np ns a).2.unchangedVariables) ∧
    (∀ x : Nat, x ∈ (observerSCU eq np ns a).2.changedVariables →
      x ∈ a.changedVariables ∨
        (some x = np ∧ shallowEqualOpt eq a.props np = false) ∨
        (some x = ns ∧ shallowEqualOpt eq a.state ns = false)) ∧
    (∀ x : Nat, x ∈ (observerSCU eq np ns a).2.unchangedVariables →
      x ∈ a.unchangedVariables ∨
        (some x = np ∧ shallowEqualOpt eq a.props np = true) ∨
        (some x = ns ∧ shallowEqualOpt eq a.state ns = true)) := by
  obtain ⟨h1, h2⟩ := h
  refine ⟨rfl, ?_, ?_, ?_, ?_, ?_, ?_, ?_, ?_⟩
  · intro hup
    cases np <;> cases ns <;>
      simp_all [observerSCU, mintPending, bne_iff_ne] <;>
      first
      | omega
      | (split_ifs <;> simp_all <;> omega)
  · intro hup
    cases np <;> cases ns <;>
      simp_all [observerSCU, mintPending, bne_iff_ne]
  · rintro p rfl hne
    cases ns <;>
      simp_all [observerSCU, mintPending, mem_addOnce_iff, mem_addOnce_self,
        mem_addOnce_of_mem]
    all_goals
      first
      | tauto
      | (split_ifs <;> simp_all [mem_addOnce_iff])
  · rintro p rfl hpe
    cases ns <;>
      simp_all [observerSCU, mintPending, mem_addOnce_iff, mem_addOnce_self,
        mem_addOnce_of_mem]
    all_goals
      first
      | tauto
      | (split_ifs <;> simp_all [mem_addOnce_iff])
  · rintro q rfl hne
    cases np <;>
      simp_all [observerSCU, mintPending, mem_addOnce_iff, mem_addOnce_self,
        mem_addOnce_of_mem]
  · rintro q rfl hqe
    cases np <;>
      simp_all [observerSCU, mintPending, mem_addOnce_iff, mem_addOnce_self,
        mem_addOnce_of_mem]
  · intro x hx
    cases np <;> cases ns <;>
      simp_all [observerSCU, mintPending, mem_addOnce_iff] <;>
      first
      | tauto
      | (split_ifs at hx <;> simp_all [mem_addOnce_iff] <;> tauto)
  · intro x hx
    cases np <;> cases ns <;>
      simp_all [observerSCU, mintPending, mem_addOnce_iff] <;>
      first
      | tauto
      | (split_ifs at hx <;> simp_all [mem_addOnce_iff] <;> tauto)

/-- Witness for C3 (amended): from the fresh record, proposing props `3` and
state `4` (both shallow-unequal to the undefined caches) mints the counter's
next token. -/
theorem observerSCU_spec_witness :
    (observerSCU eqTens (some 3) (some 4) getAdministration).2.pendingStateVersion =
      getAdministration.nextSym :=
  ((observerSCU_spec eqTens (some 3) (some 4) getAdministration
    ⟨by decide, by decide⟩).2.1 (by decide)).1

/-- Every operation's effect on the version tokens: either it is a successful
render, which copies the pending token into `stateVersion` and mints nothing,
or it leaves `stateVersion` alone and either leaves the pending token alone
or replaces it by the freshly minted `nextSym`. -/
theorem step_token_evolution (eq : Nat → Nat → Bool) (o : Op)
    (a : ObserverAdministration) :
    ((step eq o a).stateVersion = (step eq o a).pendingStateVersion ∧
      (step eq o a).pendingStateVersion = a.pendingStateVersion ∧
      (step eq o a).nextSym = a.nextSym ∧ ∃ v, o = Op.render (Except.ok v)) ∨
    ((step eq o a).stateVersion = a.stateVersion ∧
      ((step eq o a).pendingStateVersion = a.pendingStateVersion ∧
        (step eq o a).nextSym = a.nextSym ∨
       (step eq o a).pendingStateVersion = a.nextSym ∧
        (step eq o a).nextSym = a.nextSym + 1)) := by
  cases o with
  | write k v =>
    right
    cases k <;> cases v <;>
      simp [step, writeObservable, weakHas, weakDelete, getKey, setKey, reportChanged,
        mintPending] <;>
      split_ifs <;> simp
  | scu np ns =>
    right
    cases np <;> cases ns <;>
      simp [step, observerSCU, mintPending, addOnce] <;>
      split_ifs <;> simp
  | didMount =>
    right
    simp [step, componentDidMount_eq]
    split_ifs <;> simp
  | willUnmount =>
    right
    simp [step, componentWillUnmount]
  | reactionFire =>
    right
    simp [step, reactionCallback, mintPending]
    split_ifs <;> simp
  | render r =>
    cases r with
    | ok v =>
      left
      refine ⟨?_, ?_, ?_, ⟨v, rfl⟩⟩ <;>
        · simp [step, reactiveRender]
          first
          | (split_ifs <;> simp)
          | skip
    | error e =>
      right
      simp [step, reactiveRender]
      split_ifs <;> simp
  | setSched =>
    right
    simp [step, setScheduleUpdate]
    split_ifs <;> simp

/-- Claim C9: the record is created with the two version tokens identical;
every operation preserves mint-counter soundness; only a successful render
restores token equality (every other operation preserves inequality); a
successful render makes the two tokens equal; and each invalidation-recording
operation — the reaction callback firing on an up-to-date record, an external
shallow-unequal write, a mount with a missing reaction or stale tokens, and a
positive update decision — leaves the two tokens unequal. -/
theorem versionInvariant_spec (eq : Nat → Nat → Bool) (o : Op)
    (a : ObserverAdministration) (hA : TokensMinted a) :
    (getAdministration.pendingStateVersion = getAdministration.stateVersion ∧
      TokensMinted getAdministration) ∧
    TokensMinted (step eq o a) ∧
    ((∀ v : RenderResult, o ≠ Op.render (Except.ok v)) →
      a.pendingStateVersion ≠ a.stateVersion →
      (step eq o a).pendingStateVersion ≠ (step eq o a).stateVersion) ∧
    (∀ r : RenderResult,
      (reactiveRender (Except.ok r) a).2.pendingStateVersion =
        (reactiveRender (Except.ok r) a).2.stateVersion) ∧
    (a.pendingStateVersion = a.stateVersion →
      (reactionCallback a).pendingStateVersion ≠ (reactionCallback a).stateVersion) ∧
    (∀ (k : Key) (w : Nat), w ∉ a.changedVariables → w ∉ a.unchangedVariables →
      shallowEqualOpt eq (getKey a k) (some w) = false →
      (writeObservable eq k (some w) a).pendingStateVersion ≠
        (writeObservable eq k (some w) a).stateVersion) ∧
    ((a.reaction = false ∨ a.pendingStateVersion ≠ a.stateVersion) →
      (componentDidMount a).pendingStateVersion ≠ (componentDidMount a).stateVersion) ∧
    (∀ np ns : Option Nat, (observerSCU eq np ns a).1 = true →
      (observerSCU eq np ns a).2.pendingStateVersion ≠
        (observerSCU eq np ns a).2.stateVersion) := by
  obtain ⟨h1, h2⟩ := hA
  refine ⟨⟨rfl, ⟨by decide, by decide⟩⟩, ?_, ?_, ?_, ?_, ?_, ?_, ?_⟩
  · rcases step_token_evolution eq o a with ⟨e1, e2, e3, -⟩ | ⟨e1, ⟨e2, e3⟩ | ⟨e2, e3⟩⟩ <;>
      exact ⟨by omega, by omega⟩
  · intro hnr hne
    rcases step_token_evolution eq o a with ⟨e1, e2, e3, v, hv⟩ | ⟨e1, ⟨e2, e3⟩ | ⟨e2, e3⟩⟩
    · exact absurd hv (hnr v)
    · omega
    · omega
  · intro r
    simp [reactiveRender]
  · intro hv
    simp [reactionCallback, hv, mintPending]
    split_ifs <;> simp <;> omega
  · intro k w hc hu hne
    cases k <;>
      simp_all [writeObservable, weakHas, weakDelete, getKey, setKey, reportChanged,
        mintPending] <;>
      omega
  · intro hc
    simp only [componentDidMount_eq]
    by_cases hr : a.reaction = true <;> by_cases hv : a.pendingStateVersion = a.stateVersion <;>
      by_cases hsch : a.scheduleUpdate = true <;> simp_all [bne_iff_ne] <;> omega
  · intro np ns hup
    cases np <;> cases ns <;>
      simp_all [observerSCU, mintPending, addOnce, bne_iff_ne] <;>
      first
      | omega
      | (split_ifs <;> simp_all <;> omega)

/-- Witness for C9: the first mount step from the fresh record keeps the mint
counter sound. -/
theorem versionInvariant_spec_witness :
    TokensMinted (step eqTens Op.didMount getAdministration) :=
  (versionInvariant_spec eqTens Op.didMount getAdministration ⟨by decide, by decide⟩).2.1
